import Mathlib

/-!
Shallow embedding of the jupyter-omnicm HDFS contents manager
(`src/jupyter_omnicm/hdfs/hdfs_io.py`, `hdfs_manager.py`, `hdfs_checkpoints.py`).

Python strings are modelled as `List Char` (`PyStr`).  The Python string
operations the code uses (`str.split`, `str.strip`, `str.rsplit`,
`os.path.join`, `os.path.splitext`, `notebook.utils.to_os_path`,
`notebook.utils.to_api_path`) are translated below; `to_os_path` /
`to_api_path` follow the classic `notebook` package (the declared
dependency), which does not `normpath` the joined path.

Exception messages are modelled structurally (inductive `Msg`) rather than
as formatted strings; `Msg.httpWrapped s m` stands for the text a Python
f-string produces when an `HTTPError` with status `s` and message `m` is
interpolated into another message.
-/

set_option linter.unusedVariables false

abbrev PyStr := List Char

/-- Python `s.split(c)`: split on every occurrence of `c`, keeping empty
pieces; `"".split(c) == ['']`. -/
def pySplit (c : Char) : List Char → List (List Char)
  | [] => [[]]
  | x :: xs =>
    match pySplit c xs with
    | [] => [[]]
    | h :: t => if x = c then [] :: h :: t else (x :: h) :: t

/-- Python `c.join(ps)`. -/
def pyJoin (c : Char) : List (List Char) → List Char
  | [] => []
  | [p] => p
  | p :: q :: ps => p ++ c :: pyJoin c (q :: ps)

/-- Python `s.lstrip(c)`. -/
def pyStripLeft (c : Char) (l : List Char) : List Char := l.dropWhile (· == c)

/-- Python `s.strip(c)`: drop leading and trailing occurrences of `c`. -/
def pyStrip (c : Char) (l : List Char) : List Char :=
  ((pyStripLeft c l).reverse.dropWhile (· == c)).reverse

/-- One step of `posixpath.join`: how `os.path.join` merges the next
component `b` onto the accumulated path. -/
def joinOne (path b : PyStr) : PyStr :=
  if b.head? = some '/' then b
  else if path = [] ∨ path.getLast? = some '/' then path ++ b
  else path ++ '/' :: b

/-- `os.path.join(root, *parts)` on POSIX. -/
def posixJoin (root : PyStr) (parts : List PyStr) : PyStr :=
  parts.foldl joinOne root

/-- The structured message of an exception raised by the translated code. -/
inductive Msg where
  | outsideRoot (p : PyStr)        -- "%s is outside root contents directory"
  | permissionDenied (inner : Msg) -- "Permission denied {e}"
  | invalidHidden (p : PyStr)      -- "Invalid hidden file/directory: {path}"
  | hiddenDir (p : PyStr)          -- "Cannot create hidden directory {path}"
  | notAFile (p : PyStr)           -- "Not a file: {path}"
  | notADirectory (p : PyStr)      -- "Not a directory: {path}"
  | dirExists (p : PyStr)          -- "Directory {path} already exists"
  | doesNotExist (p : PyStr)       -- "{path} does not exist"
  | badFormat                      -- "Must specify format of file contents ..."
  | encodingError (p : PyStr) (inner : Msg) -- "Content encoding error for {path} {e}"
  | unwritableFile (p : PyStr) (inner : Msg)     -- "Unwritable file: {path} {e}"
  | unwritableNotebook (p : PyStr) (inner : Msg) -- "Unwritable Notebook: {path} {e}"
  | unreadableFile (p : PyStr) (inner : Msg)     -- "Unreadable file: {path} {e}"
  | notUtf8 (p : PyStr)            -- "{path} is not UTF-8 encoded"
  | noFileType                     -- "No file type provided"
  | noFileContent                  -- "No file content provided"
  | unhandledType (t : PyStr)      -- "Unhandled content type: {type}"
  | unexpectedSave (p : PyStr) (inner : Msg) -- "Unexpected error while saving file: {path} {e}"
  | fileNotFound (p : PyStr)       -- "File or directory does not exist: {path}"
  | fileExists (p : PyStr)         -- "File or directory already exist: {new_path}"
  | dirNotEmpty (p : PyStr)        -- "Directory not empty: {path}"
  | cpNotFound (p : PyStr)         -- "Checkpoint does not exist: ..."
  | osMsg (p : PyStr)              -- message of an OSError raised by the backend at path p
  | invalidBase64                  -- binascii.Error (bad padding / data-character count)
  | badAscii                       -- UnicodeEncodeError from str.encode('ascii')
  | typeError                      -- attribute/type error from non-string content
  | httpWrapped (status : Nat) (inner : Msg) -- an HTTPError rendered inside another message
  deriving Repr, DecidableEq

/-- A Python exception of the classes the translated code distinguishes. -/
inductive PyExc where
  | http (status : Nat) (m : Msg)  -- tornado.web.HTTPError
  | os (m : Msg)                   -- OSError / IOError
  | unicodeErr (m : Msg)           -- UnicodeError / UnicodeEncodeError
  | binascii (m : Msg)             -- binascii.Error (base64 decode failure)
  deriving Repr, DecidableEq

deriving instance DecidableEq for Except

/-- How an exception renders when interpolated into an f-string message. -/
def excMsg : PyExc → Msg
  | .http s m => .httpWrapped s m
  | .os m => m
  | .unicodeErr m => m
  | .binascii m => m

/-- The fault of a result, if any (used to state error-only properties
without deciding equality of the success payload). -/
def faultOf {α : Type} : Except PyExc α → Option PyExc
  | .error e => some e
  | .ok _ => none

/-- The nonempty `/`-components of an API path: `notebook.utils.to_os_path`
computes `[p for p in path.strip('/').split('/') if p != '']`. -/
def cleanParts (p : PyStr) : List PyStr :=
  (pySplit '/' (pyStrip '/' p)).filter (fun x => !x.isEmpty)

/-- `notebook.utils.to_os_path(path, root)` (classic notebook: no normpath). -/
def toOsPath (root p : PyStr) : PyStr := posixJoin root (cleanParts p)

/-- The containment guard of `HDFSManagerMixin._to_fs_path` (hdfs_io.py
lines 68-69): raise `HTTPError(404, "%s is outside root contents directory")`
when the joined path does not start with the root. -/
def outOfRootCheck (root p fsPath : PyStr) : Except PyExc PyStr :=
  if root.isPrefixOf fsPath then .ok fsPath
  else .error (.http 404 (.outsideRoot p))

/-- `HDFSManagerMixin._to_fs_path` (hdfs_io.py lines 50-70). -/
def to_fs_path (root p : PyStr) : Except PyExc PyStr :=
  outOfRootCheck root p (toOsPath root p)

/-- `notebook.utils.to_api_path(os_path, root)`, as called by
`HDFSManagerMixin._to_api_path` (hdfs_io.py lines 72-85). -/
def to_api_path (root fsPath : PyStr) : PyStr :=
  pyJoin '/'
    ((pySplit '/' (pyStrip '/'
      (if root.isPrefixOf fsPath then fsPath.drop root.length else fsPath))).filter
      (fun x => !x.isEmpty))

/-- The spec's `normalize`: collapse duplicate separators and strip leading
and trailing separators of an API path. -/
def normalizeApi (p : PyStr) : PyStr := pyJoin '/' (cleanParts p)

/-- Python `part.startswith('.')`. -/
def startsDot (x : PyStr) : Bool := x.head? == some '.'

/-- `HDFSContentsManager.is_hidden` (hdfs_manager.py lines 82-98): the check
runs on the components of the joined NATIVE path
(`fs_path = self._to_fs_path(path)`; `_to_fs_path`'s guard never fires, see
`to_fs_path_ok`, so it is the plain join). -/
def is_hidden (root p : PyStr) : Bool :=
  (pySplit '/' (toOsPath root p)).any startsDot

/-- The predicate claim C6 asserts: hidden-ness of the API path alone
(some `/`-delimited component of `p` itself starts with `.`). -/
def apiHiddenSpec (p : PyStr) : Bool :=
  (pySplit '/' p).any startsDot

/-! ### Lemmas about the Python string operations -/

theorem pySplit_cons (c x : Char) (xs : List Char) :
    pySplit c (x :: xs) =
      match pySplit c xs with
      | [] => [[]]
      | h :: t => if x = c then [] :: h :: t else (x :: h) :: t := rfl

theorem pySplit_cons_eq (c x : Char) (xs : List Char) (h1 : List Char)
    (t1 : List (List Char)) (ha : pySplit c xs = h1 :: t1) :
    pySplit c (x :: xs) = if x = c then [] :: h1 :: t1 else (x :: h1) :: t1 := by
  rw [pySplit_cons c x xs, ha]

theorem pySplit_ne_nil (c : Char) (l : List Char) : pySplit c l ≠ [] := by
  cases l with
  | nil => simp [pySplit]
  | cons x xs =>
    cases h : pySplit c xs with
    | nil => rw [pySplit_cons c x xs, h]; simp
    | cons h1 t => rw [pySplit_cons_eq c x xs h1 t h]; split <;> simp

theorem pySplit_shape (c : Char) (l : List Char) :
    ∃ h1 t1, pySplit c l = h1 :: t1 := by
  cases h : pySplit c l with
  | nil => exact absurd h (pySplit_ne_nil c l)
  | cons u v => exact ⟨u, v, rfl⟩

theorem pySplit_cons_sep (c : Char) (l : List Char) :
    pySplit c (c :: l) = [] :: pySplit c l := by
  obtain ⟨h1, t1, ha⟩ := pySplit_shape c l
  rw [pySplit_cons_eq c c l h1 t1 ha, if_pos rfl, ha]

theorem pySplit_append_sep (c : Char) (a b : List Char) :
    pySplit c (a ++ c :: b) = pySplit c a ++ pySplit c b := by
  induction a with
  | nil =>
    simp only [List.nil_append, pySplit_cons_sep]
    rfl
  | cons x a ih =>
    obtain ⟨h1, t1, ha⟩ := pySplit_shape c a
    have hab : pySplit c (a ++ c :: b) = h1 :: (t1 ++ pySplit c b) := by
      rw [ih, ha, List.cons_append]
    rw [List.cons_append, pySplit_cons_eq c x (a ++ c :: b) _ _ hab,
      pySplit_cons_eq c x a h1 t1 ha]
    split <;> simp

theorem not_mem_pySplit (c : Char) (l : List Char) :
    ∀ x ∈ pySplit c l, c ∉ x := by
  induction l with
  | nil =>
    intro x hx
    simp [pySplit] at hx
    simp [hx]
  | cons y ys ih =>
    intro x hx
    obtain ⟨h1, t1, ha⟩ := pySplit_shape c ys
    rw [pySplit_cons_eq c y ys h1 t1 ha] at hx
    by_cases hyc : y = c
    · rw [if_pos hyc] at hx
      rcases List.mem_cons.mp hx with rfl | hx2
      · simp
      · exact ih x (by rw [ha]; exact hx2)
    · rw [if_neg hyc] at hx
      rcases List.mem_cons.mp hx with rfl | hx2
      · intro hc
        rcases List.mem_cons.mp hc with hcy | hc2
        · exact hyc hcy.symm
        · exact ih h1 (by rw [ha]; exact List.mem_cons_self h1 t1) hc2
      · exact ih x (by rw [ha]; exact List.mem_cons_of_mem h1 hx2)

theorem pySplit_sepFree (c : Char) (l : List Char) (h : c ∉ l) :
    pySplit c l = [l] := by
  induction l with
  | nil => simp [pySplit]
  | cons x xs ih =>
    have hxc : ¬ x = c := fun hh => h (by rw [hh]; exact List.mem_cons_self _ _)
    have hxs : c ∉ xs := fun hc => h (List.mem_cons_of_mem x hc)
    rw [pySplit_cons_eq c x xs xs [] (ih hxs), if_neg hxc]

/-- Helper: the `/`-interleaved tail that `os.path.join` appends. -/
def sepJoinTail (ps : List PyStr) : PyStr :=
  ps.foldr (fun q r => '/' :: (q ++ r)) []

theorem pyJoin_cons_eq (p : PyStr) (ps : List PyStr) :
    pyJoin '/' (p :: ps) = p ++ sepJoinTail ps := by
  induction ps generalizing p with
  | nil => simp [pyJoin, sepJoinTail]
  | cons q ps ih =>
    show p ++ '/' :: pyJoin '/' (q :: ps) = _
    rw [ih q]
    rfl

theorem getLast?_ne_of_not_mem (l : PyStr) (hm : ('/' : Char) ∉ l) :
    l.getLast? ≠ some '/' := by
  intro h
  exact hm (List.mem_of_mem_getLast? (Option.mem_def.mpr h))

theorem head?_ne_of_not_mem (l : PyStr) (hm : ('/' : Char) ∉ l) :
    l.head? ≠ some '/' := by
  intro h
  cases l with
  | nil => simp at h
  | cons y ys =>
    simp only [List.head?_cons, Option.some.injEq] at h
    exact hm (by rw [h]; exact List.mem_cons_self _ _)

theorem pyJoin_ne_nil (p : PyStr) (ps : List PyStr) (hp : p ≠ []) :
    pyJoin '/' (p :: ps) ≠ [] := by
  rw [pyJoin_cons_eq]
  intro h
  exact hp (List.append_eq_nil.mp h).1

theorem pyJoin_head? (p : PyStr) (ps : List PyStr) (hp : p ≠ []) :
    (pyJoin '/' (p :: ps)).head? = p.head? := by
  rw [pyJoin_cons_eq]
  cases p with
  | nil => exact absurd rfl hp
  | cons y ys => rfl

theorem pyJoin_getLast?_ne (ps : List PyStr)
    (hps : ∀ x ∈ ps, x ≠ [] ∧ ('/' : Char) ∉ x) (hne : ps ≠ []) :
    (pyJoin '/' ps).getLast? ≠ some '/' := by
  induction ps with
  | nil => exact absurd rfl hne
  | cons p ps ih =>
    cases ps with
    | nil =>
      exact getLast?_ne_of_not_mem p (hps p (List.mem_cons_self p [])).2
    | cons q ps' =>
      show (p ++ '/' :: pyJoin '/' (q :: ps')).getLast? ≠ some '/'
      have hJ : pyJoin '/' (q :: ps') ≠ [] :=
        pyJoin_ne_nil q ps' (hps q (by simp)).1
      rw [List.append_cons, List.getLast?_append_of_ne_nil _ hJ]
      exact ih (fun x hx => hps x (List.mem_cons_of_mem p hx)) (by simp)

theorem joinOne_step (acc p : PyStr) (hacc : acc ≠ []) (hlast : acc.getLast? ≠ some '/')
    (hp : p ≠ []) (hpm : ('/' : Char) ∉ p) :
    joinOne acc p = acc ++ '/' :: p := by
  unfold joinOne
  rw [if_neg (head?_ne_of_not_mem p hpm), if_neg]
  push_neg
  exact ⟨hacc, hlast⟩

theorem foldl_joinOne (ps : List PyStr) :
    ∀ acc : PyStr, acc ≠ [] → acc.getLast? ≠ some '/' →
      (∀ x ∈ ps, x ≠ [] ∧ ('/' : Char) ∉ x) →
      List.foldl joinOne acc ps = acc ++ sepJoinTail ps := by
  induction ps with
  | nil =>
    intro acc _ _ _
    simp [sepJoinTail]
  | cons p ps ih =>
    intro acc hne hlast hps
    have hp := hps p (List.mem_cons_self p ps)
    have hrest : ∀ x ∈ ps, x ≠ [] ∧ ('/' : Char) ∉ x :=
      fun x hx => hps x (List.mem_cons_of_mem p hx)
    rw [List.foldl_cons, joinOne_step acc p hne hlast hp.1 hp.2]
    have hne2 : acc ++ '/' :: p ≠ [] := by simp
    have hlast2 : (acc ++ '/' :: p).getLast? ≠ some '/' := by
      rw [List.append_cons, List.getLast?_append_of_ne_nil _ hp.1]
      exact getLast?_ne_of_not_mem p hp.2
    rw [ih (acc ++ '/' :: p) hne2 hlast2 hrest]
    simp [sepJoinTail]

theorem posixJoin_nil (root : PyStr) : posixJoin root [] = root := rfl

theorem posixJoin_closed (root : PyStr) (p1 : PyStr) (ps : List PyStr)
    (hps : ∀ x ∈ p1 :: ps, x ≠ [] ∧ ('/' : Char) ∉ x) :
    posixJoin root (p1 :: ps) =
      root ++ (if root = [] ∨ root.getLast? = some '/' then [] else ['/']) ++
        pyJoin '/' (p1 :: ps) := by
  have hp1 := hps p1 (List.mem_cons_self p1 ps)
  have hrest : ∀ x ∈ ps, x ≠ [] ∧ ('/' : Char) ∉ x :=
    fun x hx => hps x (List.mem_cons_of_mem p1 hx)
  have hne2 : ∀ pre : PyStr, pre ++ p1 ≠ [] :=
    fun pre h => hp1.1 (List.append_eq_nil.mp h).2
  have hlast2 : ∀ pre : PyStr, (pre ++ p1).getLast? ≠ some '/' := by
    intro pre
    rw [List.getLast?_append_of_ne_nil _ hp1.1]
    exact getLast?_ne_of_not_mem p1 hp1.2
  unfold posixJoin
  rw [List.foldl_cons]
  by_cases hc : root = [] ∨ root.getLast? = some '/'
  · have hstep : joinOne root p1 = root ++ p1 := by
      unfold joinOne
      rw [if_neg (head?_ne_of_not_mem p1 hp1.2), if_pos hc]
    rw [hstep, foldl_joinOne ps (root ++ p1) (hne2 root) (hlast2 root) hrest,
      if_pos hc, pyJoin_cons_eq]
    simp
  · have hroot : root ≠ [] ∧ root.getLast? ≠ some '/' := by
      push_neg at hc
      exact hc
    rw [joinOne_step root p1 hroot.1 hroot.2 hp1.1 hp1.2]
    have h3 : root ++ '/' :: p1 = (root ++ ['/']) ++ p1 := by simp
    rw [h3, foldl_joinOne ps ((root ++ ['/']) ++ p1) (hne2 _) (hlast2 _) hrest,
      if_neg hc, pyJoin_cons_eq]
    simp

theorem cleanParts_props (p : PyStr) :
    ∀ x ∈ cleanParts p, x ≠ [] ∧ ('/' : Char) ∉ x := by
  intro x hx
  unfold cleanParts at hx
  have h2 := List.mem_filter.mp hx
  refine ⟨?_, not_mem_pySplit '/' _ x h2.1⟩
  intro hnil
  subst hnil
  simp at h2

/-- The suffix that `to_os_path` appends after the root. -/
def osRest (root p : PyStr) : PyStr :=
  match cleanParts p with
  | [] => []
  | p1 :: ps =>
    (if root = [] ∨ root.getLast? = some '/' then [] else ['/']) ++
      pyJoin '/' (p1 :: ps)

theorem toOsPath_decomp (root p : PyStr) :
    toOsPath root p = root ++ osRest root p := by
  unfold toOsPath osRest
  cases hc : cleanParts p with
  | nil => simp [posixJoin]
  | cons p1 ps =>
    rw [posixJoin_closed root p1 ps (by rw [← hc]; exact cleanParts_props p)]
    simp [List.append_assoc]

theorem isPrefixOf_toOsPath (root p : PyStr) :
    root.isPrefixOf (toOsPath root p) = true :=
  List.isPrefixOf_iff_prefix.mpr ⟨osRest root p, (toOsPath_decomp root p).symm⟩

/-- `_to_fs_path` never takes its failure branch: the joined native path
always starts with the configured root (the classic `to_os_path` does not
normalize `..`, so even escape attempts keep the root as a literal prefix). -/
theorem to_fs_path_ok (root p : PyStr) :
    to_fs_path root p = .ok (toOsPath root p) := by
  unfold to_fs_path outOfRootCheck
  rw [if_pos (isPrefixOf_toOsPath root p)]

theorem pyStrip_cons_sep (c : Char) (l : List Char) :
    pyStrip c (c :: l) = pyStrip c l := by
  unfold pyStrip pyStripLeft
  rw [List.dropWhile_cons]
  simp

theorem pyStrip_eq_self (c : Char) (l : List Char)
    (h1 : l.head? ≠ some c) (h2 : l.getLast? ≠ some c) : pyStrip c l = l := by
  unfold pyStrip pyStripLeft
  have hdw : l.dropWhile (· == c) = l := by
    cases l with
    | nil => rfl
    | cons y ys =>
      rw [List.dropWhile_cons]
      have hy : (y == c) = false := by
        simp only [List.head?_cons, ne_eq, Option.some.injEq] at h1
        simp [h1]
      simp [hy]
  rw [hdw]
  have hrw : l.reverse.dropWhile (· == c) = l.reverse := by
    cases hr : l.reverse with
    | nil => rfl
    | cons y ys =>
      rw [List.dropWhile_cons]
      have hy0 : l.reverse.head? = some y := by rw [hr]; rfl
      rw [List.head?_reverse] at hy0
      have hy : (y == c) = false := by
        have h3 := h2
        rw [hy0] at h3
        simp only [ne_eq, Option.some.injEq] at h3
        simp [h3]
      simp [hy]
  rw [hrw, List.reverse_reverse]

theorem pySplit_pyJoin (c : Char) (ps : List (List Char))
    (hps : ∀ x ∈ ps, c ∉ x) (hne : ps ≠ []) :
    pySplit c (pyJoin c ps) = ps := by
  induction ps with
  | nil => exact absurd rfl hne
  | cons p ps ih =>
    cases ps with
    | nil => exact pySplit_sepFree c p (hps p (List.mem_cons_self p []))
    | cons q ps' =>
      show pySplit c (p ++ c :: pyJoin c (q :: ps')) = _
      rw [pySplit_append_sep, pySplit_sepFree c p (hps p (List.mem_cons_self _ _)),
        ih (fun x hx => hps x (List.mem_cons_of_mem p hx)) (by simp)]
      rfl

/-- Round-trip core: stripping the root and re-splitting the joined path
recovers the normalized API path, for every root and every API path. -/
theorem to_api_roundtrip (root p : PyStr) :
    to_api_path root (toOsPath root p) = normalizeApi p := by
  unfold to_api_path normalizeApi
  rw [if_pos (isPrefixOf_toOsPath root p), toOsPath_decomp root p, List.drop_left]
  unfold osRest
  cases hc : cleanParts p with
  | nil => rfl
  | cons p1 ps =>
    have hprops : ∀ x ∈ p1 :: ps, x ≠ [] ∧ ('/' : Char) ∉ x := by
      rw [← hc]; exact cleanParts_props p
    have hp1 := hprops p1 (List.mem_cons_self p1 ps)
    have hsepFree : ∀ x ∈ p1 :: ps, ('/' : Char) ∉ x := fun x hx => (hprops x hx).2
    have hJhead : (pyJoin '/' (p1 :: ps)).head? ≠ some '/' := by
      rw [pyJoin_head? p1 ps hp1.1]
      exact head?_ne_of_not_mem p1 hp1.2
    have hJlast : (pyJoin '/' (p1 :: ps)).getLast? ≠ some '/' :=
      pyJoin_getLast?_ne (p1 :: ps) hprops (by simp)
    have hstrip :
        pyStrip '/' ((if root = [] ∨ root.getLast? = some '/' then [] else ['/']) ++
            pyJoin '/' (p1 :: ps)) = pyJoin '/' (p1 :: ps) := by
      split
      · rw [List.nil_append]
        exact pyStrip_eq_self '/' _ hJhead hJlast
      · rw [List.singleton_append, pyStrip_cons_sep]
        exact pyStrip_eq_self '/' _ hJhead hJlast
    rw [hstrip, pySplit_pyJoin '/' (p1 :: ps) hsepFree (by simp),
      List.filter_eq_self.mpr ?_]
    intro x hx
    have hxne := (hprops x hx).1
    simp only [Bool.not_eq_true']
    cases x with
    | nil => exact absurd rfl hxne
    | cons a as => rfl

/-! ### Claims C1, C2, C6 (the PathMapper) -/

/-- C1: for every well-formed ApiPath `p` with no `..` segments, translating
through `_to_fs_path` succeeds and translating the result back through
`_to_api_path` yields `p` again up to normalization:
`toApi(toNative(p)) == normalize(p)`.  (The proof in fact never needs the
`..`-freedom hypothesis: the classic `to_os_path` join keeps the root a
literal prefix for every `p`.) -/
theorem claim_c1_roundtrip (root p : PyStr)
    (hdots : ("..".data) ∉ cleanParts p) :
    to_fs_path root p = .ok (toOsPath root p) ∧
      to_api_path root (toOsPath root p) = normalizeApi p :=
  ⟨to_fs_path_ok root p, to_api_roundtrip root p⟩

theorem claim_c1_roundtrip_witness :
    (("..".data) ∉ cleanParts ("a/b.txt".data)) ∧
      (to_fs_path ("/root".data) ("a/b.txt".data) =
          .ok (toOsPath ("/root".data) ("a/b.txt".data)) ∧
        to_api_path ("/root".data) (toOsPath ("/root".data) ("a/b.txt".data)) =
          normalizeApi ("a/b.txt".data)) :=
  ⟨by decide, claim_c1_roundtrip ("/root".data) ("a/b.txt".data) (by decide)⟩

/-- C2 counterexample: the out-of-root guard of `_to_fs_path` raises its
fault with HTTP status 404 (as the method's own docstring documents), not
the 400 the claim asserts; moreover the guard is unreachable through
`_to_fs_path`, since even a `..`-escape keeps the configured root a literal
prefix of the joined path. -/
theorem claim_c2_counterexample :
    (outOfRootCheck ("/root".data) ("esc".data) ("/etc/passwd".data) =
        .error (.http 404 (.outsideRoot ("esc".data)))) ∧
      (to_fs_path ("/root".data) ("../../etc".data) =
        .ok ("/root/../../etc".data)) := by
  decide

/-- C2 amended: when the computed native path does not start with the
configured root, the guard in `_to_fs_path` fails with the out-of-root fault
carrying HTTP status 404 (not 400); and for every ApiPath the join-based
translation keeps the root as a prefix, so `_to_fs_path` itself always
succeeds (the failure branch is dead code). -/
theorem claim_c2_amended (root p fsPath : PyStr)
    (h : ¬ root.isPrefixOf fsPath = true) :
    outOfRootCheck root p fsPath = .error (.http 404 (.outsideRoot p)) ∧
      to_fs_path root p = .ok (toOsPath root p) := by
  refine ⟨?_, to_fs_path_ok root p⟩
  unfold outOfRootCheck
  rw [if_neg h]

theorem claim_c2_amended_witness :
    (¬ ("/root".data).isPrefixOf ("/etc".data) = true) ∧
      (outOfRootCheck ("/root".data) ("x".data) ("/etc".data) =
          .error (.http 404 (.outsideRoot ("x".data))) ∧
        to_fs_path ("/root".data) ("x".data) =
          .ok (toOsPath ("/root".data) ("x".data))) :=
  ⟨by decide, claim_c2_amended ("/root".data) ("x".data) ("/etc".data) (by decide)⟩

/-- C6 counterexample: `is_hidden` is not a function of the API path alone.
With root `/home/.jup` the plain path `a` is reported hidden, because the
check runs over the components of the joined native path and therefore sees
the root's own dotted component. -/
theorem claim_c6_counterexample :
    is_hidden ("/home/.jup".data) ("a".data) = true ∧
      apiHiddenSpec ("a".data) = false := by
  decide

/-- C6 amended: `is_hidden root p` is true iff some `/`-component of the
joined native path starts with `.` — equivalently, some component of the
configured root starts with `.`, or some nonempty component of the API path
`p` does.  It is therefore not independent of the root's own components. -/
theorem claim_c6_amended (root p : PyStr) :
    is_hidden root p =
      ((pySplit '/' root).any startsDot || (cleanParts p).any startsDot) := by
  unfold is_hidden toOsPath
  cases hc : cleanParts p with
  | nil =>
    rw [posixJoin_nil]
    simp
  | cons p1 ps =>
    have hprops : ∀ x ∈ p1 :: ps, x ≠ [] ∧ ('/' : Char) ∉ x := by
      rw [← hc]; exact cleanParts_props p
    have hsepFree : ∀ x ∈ p1 :: ps, ('/' : Char) ∉ x := fun x hx => (hprops x hx).2
    rw [posixJoin_closed root p1 ps hprops]
    by_cases hr0 : root = []
    · subst hr0
      rw [if_pos (Or.inl rfl)]
      simp only [List.nil_append]
      rw [pySplit_pyJoin '/' (p1 :: ps) hsepFree (by simp)]
      simp [pySplit, startsDot]
    · by_cases hsl : root.getLast? = some '/'
      · obtain ⟨r, hrr⟩ : ∃ r, root = r ++ ['/'] := by
          refine ⟨root.dropLast, ?_⟩
          have hgl := List.getLast?_eq_getLast_of_ne_nil hr0
          rw [hgl] at hsl
          injection hsl with h2
          conv_lhs => rw [← List.dropLast_append_getLast hr0]
          rw [h2]
        subst hrr
        rw [if_pos (Or.inr hsl)]
        have h1 : ((r ++ ['/']) ++ ([] : PyStr)) ++ pyJoin '/' (p1 :: ps) =
            r ++ '/' :: pyJoin '/' (p1 :: ps) := by simp
        rw [h1, pySplit_append_sep '/' r (pyJoin '/' (p1 :: ps)),
          pySplit_pyJoin '/' (p1 :: ps) hsepFree (by simp), List.any_append]
        have h2 : (r : PyStr) ++ ['/'] = r ++ '/' :: ([] : PyStr) := rfl
        rw [h2, pySplit_append_sep '/' r ([] : PyStr), List.any_append]
        simp [pySplit, startsDot]
      · rw [if_neg (by push_neg; exact ⟨hr0, hsl⟩)]
        have h1 : (root ++ ['/']) ++ pyJoin '/' (p1 :: ps) =
            root ++ '/' :: pyJoin '/' (p1 :: ps) := by simp
        rw [h1, pySplit_append_sep '/' root (pyJoin '/' (p1 :: ps)),
          pySplit_pyJoin '/' (p1 :: ps) hsepFree (by simp), List.any_append]

/-! ### The backend filesystem model

The pyarrow `HadoopFileSystem` collaborator is modelled as a finite map
from native paths to file data plus a directory list.  Backend calls that
can raise an OS-level (permission) fault do so exactly on the paths listed
in `forbidden`; this models the environment's fault behaviour, which the
code under test only observes through raised `OSError`s. -/

structure FileData where
  content : List Nat  -- the raw bytes
  perm : Nat
  mtime : Nat
  atime : Nat
  deriving Repr, DecidableEq

structure FS where
  files : List (PyStr × FileData)
  dirs : List PyStr
  forbidden : List PyStr
  deriving Repr, DecidableEq

def fsLookup (st : FS) (p : PyStr) : Option FileData := List.lookup p st.files

def fsIsfile (st : FS) (p : PyStr) : Bool := (fsLookup st p).isSome

def fsIsdir (st : FS) (p : PyStr) : Bool := st.dirs.contains p

def fsExists (st : FS) (p : PyStr) : Bool := fsIsfile st p || fsIsdir st p

def fsForbidden (st : FS) (p : PyStr) : Bool := st.forbidden.contains p

/-- `fs.info(path)` result fields the code reads. -/
structure Info where
  kind : PyStr
  permissions : Nat
  last_modified : Nat
  last_accessed : Nat
  deriving Repr, DecidableEq

def fsInfo (st : FS) (p : PyStr) : Option Info :=
  match fsLookup st p with
  | some fd => some ⟨("file".data), fd.perm, fd.mtime, fd.atime⟩
  | none => if fsIsdir st p then some ⟨("directory".data), 493, 0, 0⟩ else none

/-- Create or overwrite the file at `p` (the effect of a completed
`fs.open(p, 'wb')` write or `fs.upload(p, stream)`). -/
def fsSetFile (st : FS) (p : PyStr) (b : List Nat) : FS :=
  { st with files := (p, ⟨b, 420, 0, 0⟩) :: st.files.filter (fun e => e.1 != p) }

def fsUpload (st : FS) (p : PyStr) (b : List Nat) : Except PyExc FS :=
  if fsForbidden st p then .error (.os (.osMsg p)) else .ok (fsSetFile st p b)

def fsMkdir (st : FS) (p : PyStr) : Except PyExc FS :=
  if fsForbidden st p then .error (.os (.osMsg p))
  else .ok { st with dirs := p :: st.dirs }

def fsChmod (st : FS) (p : PyStr) (mode : Nat) : Except PyExc FS :=
  if fsForbidden st p then .error (.os (.osMsg p))
  else match fsLookup st p with
    | some fd =>
      .ok { st with
        files := (p, { fd with perm := mode }) :: st.files.filter (fun e => e.1 != p) }
    | none => if fsIsdir st p then .ok st else .error (.os (.osMsg p))

/-- Re-prefix a path under a renamed directory. -/
def renameUnder (a b q : PyStr) : PyStr :=
  if (a ++ ['/']).isPrefixOf q then b ++ '/' :: q.drop (a.length + 1) else q

def fsRename (st : FS) (a b : PyStr) : Except PyExc FS :=
  if fsForbidden st a || fsForbidden st b then .error (.os (.osMsg a))
  else match fsLookup st a with
    | some fd => .ok { st with files := (b, fd) :: st.files.filter (fun e => e.1 != a) }
    | none =>
      if fsIsdir st a then
        .ok { st with
          files := st.files.map (fun e => (renameUnder a b e.1, e.2)),
          dirs := st.dirs.map (fun d => if d == a then b else renameUnder a b d) }
      else .error (.os (.osMsg a))

def fsDelete (st : FS) (p : PyStr) : Except PyExc FS :=
  if fsForbidden st p then .error (.os (.osMsg p))
  else if fsIsfile st p then
    .ok { st with files := st.files.filter (fun e => e.1 != p) }
  else if fsIsdir st p then
    .ok { st with dirs := st.dirs.filter (fun d => d != p) }
  else .error (.os (.osMsg p))

/-- `fs.ls(p)`: the native paths directly under directory `p`. -/
def fsLs (st : FS) (p : PyStr) : List PyStr :=
  ((st.files.map Prod.fst) ++ st.dirs).filter
    (fun q => (p ++ ['/']).isPrefixOf q && !((q.drop (p.length + 1)).contains '/'))

/-! ### Codecs: UTF-8 and base64, as Python's `bytes.decode('utf8')`,
`str.encode`, `base64.decodebytes` and `base64.encodebytes` behave. -/

/-- Is `b` a UTF-8 continuation byte? -/
def contB (b : Nat) : Bool := 128 ≤ b && b ≤ 191

/-- Validity of a byte sequence under Python's strict `bytes.decode('utf8')`
(rejecting overlong forms, surrogates and values above U+10FFFF). -/
def isValidUtf8 : List Nat → Bool
  | [] => true
  | b :: r =>
    if b ≤ 127 then isValidUtf8 r
    else if b ≤ 193 then false
    else if b ≤ 223 then
      match r with
      | b1 :: r2 => contB b1 && isValidUtf8 r2
      | [] => false
    else if b ≤ 239 then
      match r with
      | b1 :: b2 :: r2 =>
        (if b = 224 then 160 ≤ b1 && b1 ≤ 191
         else if b = 237 then 128 ≤ b1 && b1 ≤ 159
         else contB b1) && contB b2 && isValidUtf8 r2
      | _ => false
    else if b ≤ 244 then
      match r with
      | b1 :: b2 :: b3 :: r2 =>
        (if b = 240 then 144 ≤ b1 && b1 ≤ 191
         else if b = 244 then 128 ≤ b1 && b1 ≤ 143
         else contB b1) && contB b2 && contB b3 && isValidUtf8 r2
      | _ => false
    else false

/-- UTF-8 encoding of one code point (Python `str.encode('utf8')`). -/
def utf8EncodeChar (n : Nat) : List Nat :=
  if n < 128 then [n]
  else if n < 2048 then [192 + n / 64, 128 + n % 64]
  else if n < 65536 then [224 + n / 4096, 128 + (n / 64) % 64, 128 + n % 64]
  else [240 + n / 262144, 128 + (n / 4096) % 64, 128 + (n / 64) % 64, 128 + n % 64]

/-- Python `str.encode('utf8')` (never fails). -/
def utf8Encode (s : PyStr) : List Nat :=
  (s.map (fun c => utf8EncodeChar c.toNat)).flatten

/-- Python `str.encode('ascii')`: `UnicodeEncodeError` on non-ASCII input. -/
def encodeAscii (s : PyStr) : Except PyExc (List Nat) :=
  if s.all (fun c => c.toNat < 128) then .ok (s.map (fun c => c.toNat))
  else .error (.unicodeErr .badAscii)

/-- Index of a byte in the base64 alphabet, `none` for every other byte
(which the legacy decoder silently discards). -/
def b64Index (c : Nat) : Option Nat :=
  if 65 ≤ c ∧ c ≤ 90 then some (c - 65)
  else if 97 ≤ c ∧ c ≤ 122 then some (c - 97 + 26)
  else if 48 ≤ c ∧ c ≤ 57 then some (c - 48 + 52)
  else if c = 43 then some 62
  else if c = 47 then some 63
  else none

/-- Emit the bytes of a (possibly partial) base64 quad. -/
def b64Flush (quad : List Nat) : List Nat :=
  match quad with
  | [a, b] => [a * 4 + b / 16]
  | [a, b, c] => [a * 4 + b / 16, (b % 16) * 16 + c / 4]
  | [a, b, c, d] => [a * 4 + b / 16, (b % 16) * 16 + c / 4, (c % 4) * 64 + d]
  | _ => []

/-- `binascii.a2b_base64` in its default (non-strict) mode, as
`base64.decodebytes` calls it.  Bytes outside the alphabet are discarded
(without resetting the pending pad count).  A `=` with fewer than two data
characters pending is ignored.  With two or three pending, `=` increments
the pad count, and a completed pad sequence — one `=` at three pending
characters, or two `=` (possibly separated by invalid bytes) at two —
flushes the pending characters and ends the input, every remaining byte
being ignored; an incomplete pad sequence before a valid data character is
dropped and the pad count resets.  Leftover data characters at the end
raise `binascii.Error` ("Incorrect padding" / invalid count of data
characters).  (Checked against CPython: `decodebytes` maps `b'####'` to
`b''`, `b'ab=cd'` to `b'i\xb7\x1d'`, `b'ab==cd'` to `b'i'`, `b'abc=XY'`
to `b'i\xb7'`, and raises on `b'abc'` and `b'ab='` — see
`decodebytes_padding_cases`.) -/
def a2bBase64 : List Nat → List Nat → Nat → Except PyExc (List Nat)
  | [], quad, _ => if quad.isEmpty then .ok [] else .error (.binascii .invalidBase64)
  | c :: rest, quad, pads =>
    if c = 61 then
      if 2 ≤ quad.length then
        if 4 ≤ quad.length + (pads + 1) then .ok (b64Flush quad)
        else a2bBase64 rest quad (pads + 1)
      else a2bBase64 rest quad pads
    else
      match b64Index c with
      | none => a2bBase64 rest quad pads
      | some v =>
        if quad.length = 3 then
          (a2bBase64 rest [] 0).map (fun r => b64Flush (quad ++ [v]) ++ r)
        else a2bBase64 rest (quad ++ [v]) 0

/-- `base64.decodebytes` on ASCII input bytes. -/
def decodebytes (b : List Nat) : Except PyExc (List Nat) := a2bBase64 b [] 0

/-- One base64 character. -/
def b64Char (v : Nat) : Char :=
  if v < 26 then Char.ofNat (65 + v)
  else if v < 52 then Char.ofNat (97 + v - 26)
  else if v < 62 then Char.ofNat (48 + v - 52)
  else if v = 62 then '+' else '/'

/-- Base64-encode a byte list, with `=` padding. -/
def b64EncodeGroups : List Nat → PyStr
  | [] => []
  | [a] => [b64Char (a / 4), b64Char ((a % 4) * 16), '=', '=']
  | [a, b] => [b64Char (a / 4), b64Char ((a % 4) * 16 + b / 16), b64Char ((b % 16) * 4), '=']
  | a :: b :: c :: rest =>
    [b64Char (a / 4), b64Char ((a % 4) * 16 + b / 16), b64Char ((b % 16) * 4 + c / 64),
      b64Char (c % 64)] ++ b64EncodeGroups rest

/-- `base64.encodebytes` chunks its input in 57-byte groups, each encoded to
a 76-character line followed by a newline.  `fuel` bounds the recursion by
the input length (each step consumes at least one byte). -/
def encChunks : Nat → List Nat → PyStr
  | 0, _ => []
  | _, [] => []
  | fuel + 1, bs => b64EncodeGroups (bs.take 57) ++ '\n' :: encChunks fuel (bs.drop 57)

/-- `base64.encodebytes(b).decode('ascii')`. -/
def encodebytes (b : List Nat) : PyStr := encChunks (b.length + 1) b

/-- Fidelity of the base64 decoder model against CPython's
`base64.decodebytes`: non-alphabet bytes are discarded (`b'####'` decodes to
`b''`), a lone `=` with two pending characters followed by data is ignored
(`b'ab=cd'` decodes to three bytes), a completed pad sequence ends the input
with trailing bytes ignored (`b'ab==cd'`, `b'abc=XY'`, `b'aGVsbG8='`), and
leftover data characters raise (`b'abc'`, `b'ab='`). -/
theorem decodebytes_padding_cases :
    decodebytes (("####".data).map (fun c => c.toNat)) = .ok [] ∧
      decodebytes (("ab=cd".data).map (fun c => c.toNat)) = .ok [105, 183, 29] ∧
      decodebytes (("ab==cd".data).map (fun c => c.toNat)) = .ok [105] ∧
      decodebytes (("abc=XY".data).map (fun c => c.toNat)) = .ok [105, 183] ∧
      decodebytes (("aGVsbG8=".data).map (fun c => c.toNat)) =
        .ok [104, 101, 108, 108, 111] ∧
      decodebytes (("abc".data).map (fun c => c.toNat)) =
        .error (.binascii .invalidBase64) ∧
      decodebytes (("ab=".data).map (fun c => c.toNat)) =
        .error (.binascii .invalidBase64) :=
  ⟨rfl, rfl, rfl, rfl, rfl, rfl, rfl⟩

/-! ### The mixin `HDFSManagerMixin` (hdfs_io.py) -/

/-- The configuration fixed at startup plus the external collaborators the
manager consults: the root directory, the checkpoint directory name
(`HDFSCheckpoints.checkpoint_dir`, default `.ipynb_checkpoints`), the
front end's `should_list` visibility predicate and the `mimetypes.guess_type`
collaborator. -/
structure Env where
  root : PyStr
  cpDir : PyStr
  shouldListF : PyStr → Bool
  mime : PyStr → Option PyStr

/-- `HDFSManagerMixin.perm_to_403` (hdfs_io.py lines 87-93): turn
`OSError`/`IOError` into `HTTPError(403, 'Permission denied {e}')`; every
other outcome passes through unchanged. -/
def perm_to_403 {α : Type} : Except PyExc α → Except PyExc α
  | .error (.os m) => .error (.http 403 (.permissionDenied m))
  | r => r

/-- `HDFSManagerMixin._ensure_path_is_valid` (hdfs_io.py lines 95-108). -/
def ensure_path_is_valid (env : Env) (st : FS) (p : PyStr) (type : Option PyStr)
    (enforceExists : Bool) : Except PyExc Unit :=
  if is_hidden env.root p then .error (.http 400 (.invalidHidden p))
  else
    match to_fs_path env.root p with
    | .error e => .error e
    | .ok fsp =>
      if fsExists st fsp then
        match type with
        | some t =>
          if t = ("file".data) ∨ t = ("notebook".data) then
            if fsIsdir st fsp then .error (.http 400 (.notAFile p)) else .ok ()
          else
            if fsIsfile st fsp then .error (.http 400 (.notADirectory p)) else .ok ()
        | none => .ok ()
      else if enforceExists then .error (.http 400 (.doesNotExist p))
      else .ok ()

/-- `HDFSManagerMixin._save_directory` (hdfs_io.py lines 110-133). -/
def save_directory (env : Env) (st : FS) (p : PyStr) : Except PyExc FS :=
  if is_hidden env.root p then .error (.http 400 (.hiddenDir p))
  else
    match to_fs_path env.root p with
    | .error e => .error e
    | .ok fsp =>
      if fsExists st fsp then
        if fsIsfile st fsp then .error (.http 400 (.notADirectory p))
        else .error (.http 400 (.dirExists p))
      else
        perm_to_403 (do
          let st2 ← fsMkdir st fsp
          fsChmod st2 fsp 504)

/-- The content field of a `save` model: a notebook dict (already the bytes
`nbformat` will produce for it) or a string. -/
inductive SaveContent where
  | nb (bytes : List Nat)
  | str (s : PyStr)
  deriving Repr, DecidableEq

/-- The decode step of `_save_file` (hdfs_io.py lines 158-165): UTF-8 encode
for `'text'`, ASCII-encode then `decodebytes` for `'base64'`; a non-string
content raises (`AttributeError`), which the same handler catches. -/
def encodeContent (c : SaveContent) (f : PyStr) : Except PyExc (List Nat) :=
  match c with
  | .str s =>
    if f = ("text".data) then .ok (utf8Encode s)
    else
      match encodeAscii s with
      | .error e => .error e
      | .ok b => decodebytes b
  | .nb _ => .error (.os .typeError)

/-- `HDFSManagerMixin._save_file` (hdfs_io.py lines 135-171). -/
def save_file (env : Env) (st : FS) (p : PyStr) (content : SaveContent)
    (format : Option PyStr) : Except PyExc FS :=
  if ¬ (format = some ("text".data) ∨ format = some ("base64".data)) then
    .error (.http 400 .badFormat)
  else
    match ensure_path_is_valid env st p (some ("file".data)) false with
    | .error e => .error e
    | .ok _ =>
      match to_fs_path env.root p with
      | .error e => .error e
      | .ok fsp =>
        match encodeContent content ((format.getD []) : PyStr) with
        | .error e => .error (.http 400 (.encodingError p (excMsg e)))
        | .ok bcontent =>
          perm_to_403 (fsUpload st fsp bcontent)

/-- `HDFSManagerMixin._save_notebook` (hdfs_io.py lines 173-206).  The local
staging write always succeeds (a fresh temp file); the backend upload runs
under `perm_to_403`; the surrounding `except Exception` catches EVERY
failure of the try block — including the `HTTPError(403, ...)` produced by
`perm_to_403` — and re-raises it as `HTTPError(400, 'Unwritable Notebook:
{path} {e}')`. -/
def save_notebook (env : Env) (st : FS) (p : PyStr) (nb : List Nat) :
    Except PyExc FS :=
  match ensure_path_is_valid env st p (some ("file".data)) false with
  | .error e => .error e
  | .ok _ =>
    match to_fs_path env.root p with
    | .error e => .error e
    | .ok fsp =>
      match perm_to_403 (fsUpload st fsp nb) with
      | .ok st2 => .ok st2
      | .error e => .error (.http 400 (.unwritableNotebook p (excMsg e)))

/-- `HDFSManagerMixin._read_notebook` (hdfs_io.py lines 208-231).
`nbformat.reads` is an external collaborator, modelled as total (the claims
never exercise a parse failure); opening a missing or forbidden file raises
`OSError`, which `perm_to_403` turns into 403. -/
def read_notebook (env : Env) (st : FS) (p : PyStr) : Except PyExc (List Nat) :=
  match ensure_path_is_valid env st p (some ("file".data)) true with
  | .error e => .error e
  | .ok _ =>
    match to_fs_path env.root p with
    | .error e => .error e
    | .ok fsp =>
      if fsForbidden st fsp then .error (.http 403 (.permissionDenied (.osMsg fsp)))
      else
        match fsLookup st fsp with
        | none => .error (.http 403 (.permissionDenied (.osMsg fsp)))
        | some fd => .ok fd.content

/-- The value `_read_file` returns as `content`: the decoded text (kept as
its UTF-8 bytes — the decode is a bijection onto valid byte sequences) or
the base64-encoded string. -/
inductive RawContent where
  | text (bytes : List Nat)
  | b64 (s : PyStr)
  deriving Repr, DecidableEq

/-- `HDFSManagerMixin._read_file` (hdfs_io.py lines 233-270).  The inner
`HTTPError(400, '{path} is not UTF-8 encoded')` raised when a `'text'` read
hits undecodable bytes is caught by the enclosing `except Exception` and
re-raised wrapped as `HTTPError(400, 'Unreadable file: {path} {e}')`. -/
def read_file (env : Env) (st : FS) (p : PyStr) (format : Option PyStr) :
    Except PyExc (RawContent × PyStr) :=
  match ensure_path_is_valid env st p (some ("file".data)) true with
  | .error e => .error e
  | .ok _ =>
    match to_fs_path env.root p with
    | .error e => .error e
    | .ok fsp =>
      if fsForbidden st fsp then .error (.http 403 (.permissionDenied (.osMsg fsp)))
      else
        match fsLookup st fsp with
        | none => .error (.http 403 (.permissionDenied (.osMsg fsp)))
        | some fd =>
          if isValidUtf8 fd.content then .ok (.text fd.content, ("text".data))
          else if format = some ("text".data) then
            .error (.http 400 (.unreadableFile p (.httpWrapped 400 (.notUtf8 p))))
          else .ok (.b64 (encodebytes fd.content), ("base64".data))

/-! ### `HDFSCheckpoints` (hdfs_checkpoints.py) -/

/-- Python `('/' + p).rsplit('/', 1)` as used by `checkpoint_path`: split at
the last `'/'` into (before, after). -/
def rsplitSlash (l : PyStr) : PyStr × PyStr :=
  ((l.reverse.dropWhile (fun c => c != '/')).drop 1 |>.reverse,
    (l.reverse.takeWhile (fun c => c != '/')).reverse)

/-- `os.path.splitext(name)` for a basename: split at the last `.`, except
that a basename consisting only of leading dots keeps no extension. -/
def splitext (name : PyStr) : PyStr × PyStr :=
  let r := name.reverse
  let extRev := r.takeWhile (fun c => c != '.')
  if extRev.length = r.length then (name, [])
  else
    let stemRev := r.drop (extRev.length + 1)
    if stemRev.all (fun c => c == '.') then (name, [])
    else (stemRev.reverse, '.' :: extRev.reverse)

/-- `HDFSCheckpoints.checkpoint_path` (hdfs_checkpoints.py lines 88-104):
`<parent>/<checkpoint_dir>/<basename>-<checkpoint_id><ext>`.  The
`fs.exists/isdir` call in the source discards its result and has no
effect. -/
def checkpoint_path (env : Env) (cpid p : PyStr) : PyStr :=
  let p1 := pyStrip '/' p
  let pr := rsplitSlash ('/' :: p1)
  let parent := pyStrip '/' pr.1
  let se := splitext pr.2
  let filename := se.1 ++ ('-' :: cpid) ++ se.2
  let cpd := posixJoin parent [env.cpDir]
  posixJoin cpd [filename]

structure CpRecord where
  id : PyStr
  last_modified : Nat
  deriving Repr, DecidableEq

/-- `HDFSCheckpoints.checkpoint_model` (hdfs_checkpoints.py lines 106-116):
stat the native path and build the record (`fs.info` on a missing path
raises `OSError`). -/
def checkpoint_model (env : Env) (st : FS) (cpid p : PyStr) :
    Except PyExc CpRecord :=
  match to_fs_path env.root p with
  | .error e => .error e
  | .ok fsp =>
    match fsInfo st fsp with
    | none => .error (.os (.osMsg fsp))
    | some i => .ok ⟨cpid, i.last_modified⟩

/-- `HDFSCheckpoints.__fs_copy` (hdfs_checkpoints.py lines 118-142): open
destination `'wb'` first, then source `'rb'`, stream the bytes, then chmod
the destination to `0o770`.  Not wrapped in `perm_to_403` — backend faults
escape as raw `OSError`s. -/
def fs_copy (st : FS) (src dst : PyStr) : Except PyExc FS :=
  if fsForbidden st dst then .error (.os (.osMsg dst))
  else if fsForbidden st src then .error (.os (.osMsg src))
  else
    match fsLookup st src with
    | none => .error (.os (.osMsg src))
    | some fd => fsChmod (fsSetFile st dst fd.content) dst 504

/-- `HDFSCheckpoints.create_checkpoint` (hdfs_checkpoints.py lines 35-42). -/
def create_checkpoint (env : Env) (st : FS) (p : PyStr) :
    Except PyExc (FS × CpRecord) :=
  match to_fs_path env.root p with
  | .error e => .error e
  | .ok fsp =>
    match to_fs_path env.root (checkpoint_path env ("checkpoint".data) p) with
    | .error e => .error e
    | .ok fsdest =>
      match fs_copy st fsp fsdest with
      | .error e => .error e
      | .ok st2 =>
        match checkpoint_model env st2 ("checkpoint".data)
            (checkpoint_path env ("checkpoint".data) p) with
        | .error e => .error e
        | .ok r => .ok (st2, r)

/-- `HDFSCheckpoints.list_checkpoints` (hdfs_checkpoints.py lines 76-86):
empty when the checkpoint file is absent, else the single record. -/
def list_checkpoints (env : Env) (st : FS) (p : PyStr) :
    Except PyExc (List CpRecord) :=
  match to_fs_path env.root (checkpoint_path env ("checkpoint".data) p) with
  | .error e => .error e
  | .ok fscp =>
    if ¬ fsExists st fscp then .ok []
    else
      match checkpoint_model env st ("checkpoint".data)
          (checkpoint_path env ("checkpoint".data) p) with
      | .error e => .error e
      | .ok r => .ok [r]

/-- `HDFSCheckpoints.rename_checkpoint` (hdfs_checkpoints.py lines 51-64).
Translated exactly as written: the source computes `fs_old_cp_path` and
`fs_new_cp_path` with `self._to_api_path` — not `_to_fs_path` — so the
existence check and the rename run on root-relative API-style paths, not on
the native checkpoint locations. -/
def rename_checkpoint (env : Env) (st : FS) (cpid oldp newp : PyStr) :
    Except PyExc FS :=
  let fsold := to_api_path env.root (checkpoint_path env cpid oldp)
  let fsnew := to_api_path env.root (checkpoint_path env cpid newp)
  if fsExists st fsold then perm_to_403 (fsRename st fsold fsnew) else .ok st

/-- `HDFSCheckpoints.delete_checkpoint` (hdfs_checkpoints.py lines 66-74). -/
def delete_checkpoint (env : Env) (st : FS) (cpid p : PyStr) :
    Except PyExc FS :=
  match to_fs_path env.root (checkpoint_path env cpid p) with
  | .error e => .error e
  | .ok fscp =>
    if ¬ fsExists st fscp then .error (.http 404 (.cpNotFound p))
    else perm_to_403 (fsDelete st fscp)

/-! ### `HDFSContentsManager` (hdfs_manager.py) -/

/-- Content payload of an entry model.  Directory listings keep the child
names: the child models that `__get_dir` builds (content-less `get` calls on
each child) are run for their effects/faults but their bodies are elided. -/
inductive ModelContent where
  | raw (r : RawContent)
  | nbjson (b : List Nat)
  | listing (names : List PyStr)
  deriving Repr, DecidableEq

/-- The model dict built by `__base_model` / returned by `get`. -/
structure EntryModel where
  name : PyStr
  path : PyStr
  last_modified : Nat
  created : Nat
  content : Option ModelContent
  format : Option PyStr
  mimetype : Option PyStr
  type : PyStr
  writable : Bool
  deriving Repr, DecidableEq

/-- Python `path.rsplit('/', 1)[-1]`. -/
def lastComponent (p : PyStr) : PyStr :=
  (p.reverse.takeWhile (fun c => c != '/')).reverse

/-- `HDFSContentsManager.__base_model` (hdfs_manager.py lines 120-142). -/
def base_model (env : Env) (st : FS) (p : PyStr) (type : Option PyStr) :
    Except PyExc EntryModel :=
  match ensure_path_is_valid env st p type true with
  | .error e => .error e
  | .ok _ =>
    match to_fs_path env.root p with
    | .error e => .error e
    | .ok fsp =>
      match fsInfo st fsp with
      | none => .error (.os (.osMsg fsp))
      | some i =>
        .ok { name := lastComponent p, path := p, last_modified := i.last_modified,
              created := i.last_accessed, content := none, format := none,
              mimetype := none, type := i.kind,
              writable := (i.permissions &&& 128) != 0 }

/-- `ContentsManager.exists`: `file_exists(path) or dir_exists(path)`
(hdfs_manager.py lines 64-80, 100-118). -/
def existsApi (env : Env) (st : FS) (p : PyStr) : Bool :=
  fsExists st (toOsPath env.root p)

/-- The type-inference step of `get` (hdfs_manager.py lines 202-207):
when no type is passed, stat the path; 400 if it does not exist. -/
def inferTypeStep (env : Env) (st : FS) (p : PyStr) (type : Option PyStr) :
    Except PyExc PyStr :=
  match type with
  | some t => .ok t
  | none =>
    match to_fs_path env.root p with
    | .error e => .error e
    | .ok fsp =>
      if ¬ fsExists st fsp then .error (.http 400 (.doesNotExist p))
      else
        match fsInfo st fsp with
        | none => .error (.os (.osMsg fsp))
        | some i => .ok i.kind

/-- `get` with `content=False` (the form `__get_dir` uses on each child and
`save` uses for its return model): the dispatch of `HDFSContentsManager.get`
with the three content-less branches inlined. -/
def get0 (env : Env) (st : FS) (p : PyStr) (type : Option PyStr) :
    Except PyExc EntryModel :=
  match inferTypeStep env st p type with
  | .error e => .error e
  | .ok t0 =>
    let t := if (".ipynb".data).isSuffixOf p then ("notebook".data) else t0
    if t = ("directory".data) then base_model env st p (some ("directory".data))
    else if t = ("notebook".data) then
      match base_model env st p (some ("file".data)) with
      | .error e => .error e
      | .ok m => .ok { m with type := ("notebook".data) }
    else
      match base_model env st p (some ("file".data)) with
      | .error e => .error e
      | .ok m => .ok { m with mimetype := env.mime p }

/-- The child loop of `__get_dir` (hdfs_manager.py lines 150-157): for each
native child path, a name is computed, the visibility predicate and
`is_hidden` (applied to the NATIVE child path) filter it, and a content-less
`get` runs on `'{path}/{name}'`. -/
def listChildren (env : Env) (st : FS) (p : PyStr) :
    List PyStr → Except PyExc (List PyStr)
  | [] => .ok []
  | q :: rest =>
    let name := lastComponent (pyStrip '/' q)
    if env.shouldListF name && !(is_hidden env.root q) then
      match get0 env st (p ++ '/' :: name) none with
      | .error e => .error e
      | .ok _ =>
        match listChildren env st p rest with
        | .error e => .error e
        | .ok ns => .ok (name :: ns)
    else listChildren env st p rest

/-- `HDFSContentsManager.__get_dir` (hdfs_manager.py lines 144-159). -/
def get_dir (env : Env) (st : FS) (p : PyStr) (content : Bool) :
    Except PyExc EntryModel :=
  match base_model env st p (some ("directory".data)) with
  | .error e => .error e
  | .ok m =>
    if content then
      match to_fs_path env.root p with
      | .error e => .error e
      | .ok fsp =>
        match listChildren env st p (fsLs st fsp) with
        | .error e => .error e
        | .ok names =>
          .ok { m with
                  content := some (.listing names)
                  format := some ("json".data) }
    else .ok m

/-- `HDFSContentsManager.__get_notebook` (hdfs_manager.py lines 185-198);
`mark_trusted_cells` and `validate_notebook_model` are external no-ops. -/
def get_nb (env : Env) (st : FS) (p : PyStr) (content : Bool) :
    Except PyExc EntryModel :=
  match base_model env st p (some ("file".data)) with
  | .error e => .error e
  | .ok m =>
    if content then
      match read_notebook env st p with
      | .error e => .error e
      | .ok nb =>
        .ok { m with
                type := ("notebook".data)
                content := some (.nbjson nb)
                format := some ("json".data) }
    else .ok { m with type := ("notebook".data) }

/-- `HDFSContentsManager.__get_file` (hdfs_manager.py lines 161-183). -/
def get_file (env : Env) (st : FS) (p : PyStr) (content : Bool)
    (format : Option PyStr) : Except PyExc EntryModel :=
  match base_model env st p (some ("file".data)) with
  | .error e => .error e
  | .ok m =>
    if content then
      match read_file env st p format with
      | .error e => .error e
      | .ok cf =>
        let mt := match env.mime p with
          | some x => some x
          | none =>
            some (if cf.2 = ("text".data) then ("text/plain".data)
                  else ("application/octet-stream".data))
        .ok { m with
                mimetype := mt
                content := some (.raw cf.1)
                format := some cf.2 }
    else .ok { m with mimetype := env.mime p }

/-- `HDFSContentsManager.get` (hdfs_manager.py lines 200-216). -/
def HDFSContentsManager.get (env : Env) (st : FS) (p : PyStr) (content : Bool)
    (type format : Option PyStr) : Except PyExc EntryModel :=
  match inferTypeStep env st p type with
  | .error e => .error e
  | .ok t0 =>
    let t := if (".ipynb".data).isSuffixOf p then ("notebook".data) else t0
    if t = ("directory".data) then get_dir env st p content
    else if t = ("notebook".data) then get_nb env st p content
    else get_file env st p content format

/-- `HDFSContentsManager.rename_file` (hdfs_manager.py lines 277-290). -/
def rename_file (env : Env) (st : FS) (oldp newp : PyStr) : Except PyExc FS :=
  if ¬ existsApi env st oldp then .error (.http 404 (.fileNotFound oldp))
  else if is_hidden env.root oldp then .error (.http 400 (.invalidHidden oldp))
  else if existsApi env st newp then .error (.http 404 (.fileExists newp))
  else if is_hidden env.root newp then .error (.http 400 (.invalidHidden newp))
  else
    match to_fs_path env.root oldp, to_fs_path env.root newp with
    | .ok a, .ok b => perm_to_403 (fsRename st a b)
    | .error e, _ => .error e
    | _, .error e => .error e

/-- `HDFSContentsManager.delete_file` (hdfs_manager.py lines 260-275). -/
def delete_file (env : Env) (st : FS) (p : PyStr) : Except PyExc FS :=
  if ¬ existsApi env st p then .error (.http 404 (.fileNotFound p))
  else if is_hidden env.root p then .error (.http 400 (.invalidHidden p))
  else
    match to_fs_path env.root p with
    | .error e => .error e
    | .ok fsp =>
      if fsIsfile st fsp then perm_to_403 (fsDelete st fsp)
      else if 0 < (fsLs st fsp).length then .error (.http 400 (.dirNotEmpty p))
      else perm_to_403 (fsDelete st fsp)

/-- The model dict passed to `save`: presence/absence of the `type`,
`content` and `format` keys. -/
structure SaveModel where
  type : Option PyStr
  content : Option SaveContent
  format : Option PyStr
  deriving Repr, DecidableEq

/-- The dispatch block inside `save`'s `try` (hdfs_manager.py lines
233-246): notebook → `_save_notebook` then create a checkpoint when
`list_checkpoints` is empty; file → `_save_file`; directory →
`_save_directory`; anything else → 400.  `nbformat.from_dict` /
`check_and_sign` are external; `from_dict` on a non-dict content raises,
modelled as a generic fault the enclosing handler turns into a 500. -/
def saveBody (env : Env) (st : FS) (m : SaveModel) (t p : PyStr) :
    Except PyExc FS :=
  if t = ("notebook".data) then
    match m.content with
    | some (.nb nb) =>
      match save_notebook env st p nb with
      | .error e => .error e
      | .ok st2 =>
        match list_checkpoints env st2 p with
        | .error e => .error e
        | .ok lc =>
          if lc.isEmpty then
            match create_checkpoint env st2 p with
            | .error e => .error e
            | .ok r => .ok r.1
          else .ok st2
    | _ => .error (.os .typeError)
  else if t = ("file".data) then
    match m.content with
    | some c => save_file env st p c m.format
    | none => .error (.os .typeError)
  else if t = ("directory".data) then save_directory env st p
  else .error (.http 400 (.unhandledType t))

/-- The `except` clauses of `save` (hdfs_manager.py lines 247-250):
`HTTPError` passes through unchanged, any other exception becomes
`HTTPError(500, 'Unexpected error while saving file: {path} {e}')`. -/
def wrapSave (p : PyStr) : Except PyExc FS → Except PyExc FS
  | .ok st => .ok st
  | .error (.http s m) => .error (.http s m)
  | .error e => .error (.http 500 (.unexpectedSave p (excMsg e)))

/-- `HDFSContentsManager.save` (hdfs_manager.py lines 218-258): validate the
path and the model fields, run the dispatch under the wrapping handler, then
re-read a content-less model of the saved path.  The pre-save hook,
`validate_notebook_model` and the validation message are external no-ops. -/
def save (env : Env) (st : FS) (m : SaveModel) (p : PyStr) :
    Except PyExc (FS × EntryModel) :=
  match ensure_path_is_valid env st p none false with
  | .error e => .error e
  | .ok _ =>
    match m.type with
    | none => .error (.http 400 .noFileType)
    | some t =>
      if m.content = none ∧ ¬ t = ("directory".data) then
        .error (.http 400 .noFileContent)
      else
        match wrapSave p (saveBody env st m t p) with
        | .error e => .error e
        | .ok st2 =>
          match HDFSContentsManager.get env st2 p false none none with
          | .error e => .error e
          | .ok em => .ok (st2, em)

/-! ### Shared lemmas and concrete fixtures for the remaining claims -/

/-- A concrete configuration: root `/r`, default checkpoint directory, a
visibility predicate that lists everything, no MIME guesses. -/
def env0 : Env :=
  ⟨("/r".data), (".ipynb_checkpoints".data), fun _ => true, fun _ => none⟩

/-- The empty backend state. -/
def st0 : FS := ⟨[], [], []⟩

theorem ensure_valid_file_of (env : Env) (st : FS) (p : PyStr) (e : Bool)
    (hh : is_hidden env.root p = false)
    (hd : fsIsdir st (toOsPath env.root p) = false)
    (hex : e = true → fsExists st (toOsPath env.root p) = true) :
    ensure_path_is_valid env st p (some ("file".data)) e = .ok () := by
  unfold ensure_path_is_valid
  simp only [hh, Bool.false_eq_true, if_false, to_fs_path_ok]
  by_cases hex2 : fsExists st (toOsPath env.root p) = true
  · simp [hex2, hd]
  · cases e with
    | true => exact absurd (hex rfl) hex2
    | false => simp [hex2]

theorem fsInfo_of_exists (st : FS) (q : PyStr) (h : fsExists st q = true) :
    ∃ i, fsInfo st q = some i := by
  unfold fsExists fsIsfile at h
  unfold fsInfo
  cases hl : fsLookup st q with
  | some fd => exact ⟨_, rfl⟩
  | none =>
    rw [hl] at h
    simp only [Option.isSome_none, Bool.false_or] at h
    rw [h]
    exact ⟨_, rfl⟩

/-! ### Claim C5: `perm_to_403` and `_save_notebook` -/

/-- The state for the C5 scenario: the backend denies writes to the native
path of `nb.ipynb`. -/
def st5 : FS := ⟨[], [], [("/r/nb.ipynb".data)]⟩

/-- C5 counterexample: a permission fault raised by the backend during the
notebook upload is first turned into `HTTPError(403, ...)` by
`perm_to_403`, but `_save_notebook`'s own `except Exception` handler catches
that 403 and re-raises `HTTPError(400, 'Unwritable Notebook: ...')`: the
fault that surfaces from `_save_notebook` has status 400, not the
access-denied 403 the claim asserts. -/
theorem claim_c5_counterexample :
    save_notebook env0 st5 ("nb.ipynb".data) [1] =
        .error (.http 400 (.unwritableNotebook ("nb.ipynb".data)
          (.httpWrapped 403 (.permissionDenied (.osMsg ("/r/nb.ipynb".data)))))) ∧
      (400 : Nat) ≠ 403 :=
  ⟨rfl, by decide⟩

/-- C5 amended: `perm_to_403` itself converts OS-level faults into a 403
permission fault and passes every other outcome through unchanged; but in
`_save_notebook` the surrounding `except Exception` catches the resulting
403 as well and re-raises it as a 400 `Unwritable Notebook` fault, so at the
`_save_notebook` boundary a backend permission fault does NOT surface as an
access-denied condition. -/
theorem claim_c5_amended :
    (∀ (α : Type) (m : Msg),
      perm_to_403 (α := α) (.error (.os m)) = .error (.http 403 (.permissionDenied m))) ∧
    (∀ (α : Type) (r : Except PyExc α),
      (∀ m, r ≠ .error (.os m)) → perm_to_403 r = r) ∧
    (∀ (env : Env) (st : FS) (p : PyStr) (nb : List Nat),
      is_hidden env.root p = false →
      fsIsdir st (toOsPath env.root p) = false →
      fsForbidden st (toOsPath env.root p) = true →
      save_notebook env st p nb =
        .error (.http 400 (.unwritableNotebook p
          (.httpWrapped 403 (.permissionDenied (.osMsg (toOsPath env.root p))))))) := by
  refine ⟨fun α m => rfl, ?_, ?_⟩
  · intro α r h
    match r with
    | .ok a => rfl
    | .error (.http s m) => rfl
    | .error (.os m) => exact absurd rfl (h m)
    | .error (.unicodeErr m) => rfl
    | .error (.binascii m) => rfl
  · intro env st p nb hh hd hforb
    unfold save_notebook
    simp only [ensure_valid_file_of env st p false hh hd (by simp), to_fs_path_ok]
    simp [fsUpload, hforb, perm_to_403, excMsg]

theorem claim_c5_amended_witness :
    (perm_to_403 (α := Unit) (.error (.os (.osMsg ("/r/x".data)))) =
        .error (.http 403 (.permissionDenied (.osMsg ("/r/x".data))))) ∧
      (perm_to_403 (α := Unit) (.ok ()) = .ok ()) ∧
      save_notebook env0 st5 ("nb.ipynb".data) [1] =
        .error (.http 400 (.unwritableNotebook ("nb.ipynb".data)
          (.httpWrapped 403 (.permissionDenied (.osMsg (toOsPath ("/r".data) ("nb.ipynb".data))))))) :=
  ⟨claim_c5_amended.1 Unit (.osMsg ("/r/x".data)),
    claim_c5_amended.2.1 Unit (.ok ()) (fun m => by simp),
    claim_c5_amended.2.2 env0 st5 ("nb.ipynb".data) [1] rfl rfl rfl⟩

/-! ### Claim C7: `rename_checkpoint` -/

/-- State for C7: the document `a.ipynb` and its checkpoint both exist at
their native locations under the root. -/
def st7 : FS :=
  ⟨[(("/r/a.ipynb".data), ⟨[1], 420, 0, 0⟩),
    (("/r/.ipynb_checkpoints/a-checkpoint.ipynb".data), ⟨[2], 420, 0, 0⟩)], [], []⟩

/-- C7: the claim describes the evident intent, but the code computes
`fs_old_cp_path`/`fs_new_cp_path` with `_to_api_path` instead of
`_to_fs_path` (hdfs_checkpoints.py lines 54 and 56), so the existence check
and the rename run on root-relative API paths.  With a checkpoint present at
the old NATIVE location, the call is a silent no-op: the state is returned
unchanged, the old checkpoint file stays, and nothing appears at the new
location.  (Compare `delete_checkpoint`/`list_checkpoints`, which map the
same `checkpoint_path` result through `_to_fs_path`.) -/
theorem claim_c7_code_bug :
    rename_checkpoint env0 st7 ("checkpoint".data) ("a.ipynb".data) ("b.ipynb".data) =
        .ok st7 ∧
      fsExists st7
        (toOsPath ("/r".data) (checkpoint_path env0 ("checkpoint".data) ("a.ipynb".data))) =
        true ∧
      fsExists st7
        (toOsPath ("/r".data) (checkpoint_path env0 ("checkpoint".data) ("b.ipynb".data))) =
        false :=
  ⟨rfl, rfl, rfl⟩

/-! ### Claim C8: `rename_file` fault precedence -/

/-- State for C8: both `a` and the hidden `.b` exist under the root. -/
def st8 : FS :=
  ⟨[(("/r/a".data), ⟨[1], 420, 0, 0⟩), (("/r/.b".data), ⟨[2], 420, 0, 0⟩)], [], []⟩

/-- C8 counterexample: renaming `a` onto the hidden existing `.b` raises the
conflict fault (`HTTPError(404, 'File or directory already exist')`), not
the hidden-path fault the claim's hidden clause asserts for "either
endpoint": the conflict check precedes the hidden check on the new path. -/
theorem claim_c8_counterexample :
    rename_file env0 st8 ("a".data) (".b".data) =
        .error (.http 404 (.fileExists (".b".data))) ∧
      is_hidden ("/r".data) (".b".data) = true ∧
      PyExc.http 404 (.fileExists (".b".data)) ≠
        PyExc.http 400 (.invalidHidden (".b".data)) :=
  ⟨rfl, rfl, by decide⟩

/-- C8 amended: `rename_file` checks, in order: `NotFoundFault` (404) if the
old path is absent; `HiddenPathFault` (400) if the old path is hidden;
`ConflictFault` (status 404, message "already exist") if the new path
already exists — in which case no filesystem mutation occurs, the backend
rename not being reached; and only then `HiddenPathFault` for a hidden new
path. -/
theorem claim_c8_amended (env : Env) (st : FS) (oldp newp : PyStr) :
    (existsApi env st oldp = false →
      rename_file env st oldp newp = .error (.http 404 (.fileNotFound oldp))) ∧
    (existsApi env st oldp = true → is_hidden env.root oldp = true →
      rename_file env st oldp newp = .error (.http 400 (.invalidHidden oldp))) ∧
    (existsApi env st oldp = true → is_hidden env.root oldp = false →
      existsApi env st newp = true →
      rename_file env st oldp newp = .error (.http 404 (.fileExists newp))) ∧
    (existsApi env st oldp = true → is_hidden env.root oldp = false →
      existsApi env st newp = false → is_hidden env.root newp = true →
      rename_file env st oldp newp = .error (.http 400 (.invalidHidden newp))) := by
  refine ⟨?_, ?_, ?_, ?_⟩
  · intro h1
    unfold rename_file
    simp [h1]
  · intro h1 h2
    unfold rename_file
    simp [h1, h2]
  · intro h1 h2 h3
    unfold rename_file
    simp [h1, h2, h3]
  · intro h1 h2 h3 h4
    unfold rename_file
    simp [h1, h2, h3, h4]

theorem claim_c8_amended_witness :
    rename_file env0 st8 ("a".data) (".b".data) =
      .error (.http 404 (.fileExists (".b".data))) :=
  (claim_c8_amended env0 st8 ("a".data) (".b".data)).2.2.1 rfl rfl rfl

/-! ### Claim C9: `_save_file` with undecodable base64 content -/

/-- C9 counterexample: the content `"####"` is not valid base64, but
Python's legacy decoder (`base64.decodebytes` → non-strict
`binascii.a2b_base64`) silently discards every byte outside the alphabet:
`decodebytes(b'####') == b''` and no exception is raised.  `_save_file`
therefore does NOT fail with an encoding fault: it succeeds and writes an
empty file, creating the previously absent target. -/
theorem claim_c9_counterexample :
    decodebytes ((("####".data)).map (fun c => c.toNat)) = .ok [] ∧
      save_file env0 st0 ("f.bin".data) (.str ("####".data)) (some ("base64".data)) =
        .ok (fsSetFile st0 ("/r/f.bin".data) []) ∧
      fsIsfile st0 ("/r/f.bin".data) = false ∧
      fsIsfile (fsSetFile st0 ("/r/f.bin".data) []) ("/r/f.bin".data) = true :=
  ⟨rfl, rfl, rfl, rfl⟩

/-- C9 amended: for content whose base64 decode actually raises — e.g.
`"abc"`, whose count of data characters is not a multiple of four — the
decode step of `_save_file` fails with the 400 encoding fault before the
backend file is opened, so the target is left untouched; but a string of
non-alphabet characters such as `"####"` decodes to empty bytes without an
exception, and the save succeeds, writing an empty file. -/
theorem claim_c9_amended (env : Env) (st : FS) (p s : PyStr) (er : PyExc)
    (hh : is_hidden env.root p = false)
    (hd : fsIsdir st (toOsPath env.root p) = false)
    (he : encodeContent (.str s) ("base64".data) = .error er) :
    save_file env st p (.str s) (some ("base64".data)) =
      .error (.http 400 (.encodingError p (excMsg er))) := by
  unfold save_file
  simp only [ensure_valid_file_of env st p false hh hd (by simp), to_fs_path_ok]
  rw [if_neg (by simp)]
  simp only [Option.getD_some, he]

theorem claim_c9_amended_witness :
    save_file env0 st0 ("f.bin".data) (.str ("abc".data)) (some ("base64".data)) =
      .error (.http 400 (.encodingError ("f.bin".data)
        (excMsg (.binascii .invalidBase64)))) :=
  claim_c9_amended env0 st0 ("f.bin".data) ("abc".data) (.binascii .invalidBase64)
    rfl rfl rfl

/-! ### Claim C4: `_read_file` decode behaviour -/

/-- C4: for an existing, readable, non-directory, non-hidden path,
`_read_file` returns the text form whenever the raw bytes decode as UTF-8 —
whatever encoding was requested, including `'base64'` and unspecified; when
the decode fails it raises the 400 not-UTF-8 fault (wrapped by the outer
"Unreadable file" handler) iff `'text'` was requested, and otherwise
returns the base64-encoded bytes tagged `'base64'`. -/
theorem claim_c4_read_file (env : Env) (st : FS) (p : PyStr) (fd : FileData)
    (fmt : Option PyStr)
    (hh : is_hidden env.root p = false)
    (hf : fsLookup st (toOsPath env.root p) = some fd)
    (hd : fsIsdir st (toOsPath env.root p) = false)
    (hforb : fsForbidden st (toOsPath env.root p) = false) :
    read_file env st p fmt =
      (if isValidUtf8 fd.content then .ok (.text fd.content, ("text".data))
       else if fmt = some ("text".data) then
         .error (.http 400 (.unreadableFile p (.httpWrapped 400 (.notUtf8 p))))
       else .ok (.b64 (encodebytes fd.content), ("base64".data))) := by
  have hisf : fsIsfile st (toOsPath env.root p) = true := by
    unfold fsIsfile
    rw [hf]
    rfl
  have hex : fsExists st (toOsPath env.root p) = true := by
    unfold fsExists
    rw [hisf]
    rfl
  unfold read_file
  simp only [ensure_valid_file_of env st p true hh hd (fun _ => hex), to_fs_path_ok,
    hforb, Bool.false_eq_true, if_false, hf]

/-- State for the C4 witness: a single non-UTF-8 file under the root. -/
def st4 : FS := ⟨[(("/r/f".data), ⟨[255], 420, 0, 0⟩)], [], []⟩

theorem claim_c4_read_file_witness :
    read_file env0 st4 ("f".data) none =
      .ok (.b64 (encodebytes [255]), ("base64".data)) :=
  claim_c4_read_file env0 st4 ("f".data) ⟨[255], 420, 0, 0⟩ none rfl rfl rfl rfl

/-! ### Claim C10: `get` on hidden paths -/

/-- C10 counterexample: for a hidden path that does not exist and carries no
type hint, `get` fails with the 400 "does not exist" fault raised by its
type-inference step — a not-found-class fault, not the hidden-path fault the
claim asserts for every hidden path. -/
theorem claim_c10_counterexample :
    is_hidden ("/r".data) (".a".data) = true ∧
      HDFSContentsManager.get env0 st0 (".a".data) true none none =
        .error (.http 400 (.doesNotExist (".a".data))) ∧
      Msg.doesNotExist (".a".data) ≠ Msg.invalidHidden (".a".data) :=
  ⟨rfl, rfl, by decide⟩

/-- C10 amended: for every hidden path `p`, `get` — whether or not content
was requested, for every requested format — fails before any backend
content read: with the 400 hidden-path fault whenever a kind is supplied or
`p` exists (so the kind can be inferred), the fault being raised by
`__base_model`'s validation ahead of every read or listing; when no kind is
given and `p` is absent, the type-inference step fails first with the 400
"does not exist" fault instead. -/
theorem claim_c10_amended (env : Env) (st : FS) (p : PyStr) (content : Bool)
    (ty fmt : Option PyStr)
    (hh : is_hidden env.root p = true)
    (hty : ty ≠ none ∨ fsExists st (toOsPath env.root p) = true) :
    HDFSContentsManager.get env st p content ty fmt =
      .error (.http 400 (.invalidHidden p)) := by
  have hbm : ∀ ty2, base_model env st p ty2 = .error (.http 400 (.invalidHidden p)) := by
    intro ty2
    unfold base_model ensure_path_is_valid
    rw [if_pos hh]
  have hdir : get_dir env st p content = .error (.http 400 (.invalidHidden p)) := by
    unfold get_dir
    rw [hbm]
  have hnb : get_nb env st p content = .error (.http 400 (.invalidHidden p)) := by
    unfold get_nb
    rw [hbm]
  have hfile : get_file env st p content fmt = .error (.http 400 (.invalidHidden p)) := by
    unfold get_file
    rw [hbm]
  have hdisp : ∀ t1 : PyStr,
      (if t1 = ("directory".data) then get_dir env st p content
       else if t1 = ("notebook".data) then get_nb env st p content
       else get_file env st p content fmt) =
        .error (.http 400 (.invalidHidden p)) := by
    intro t1
    by_cases h1 : t1 = ("directory".data)
    · rw [if_pos h1]
      exact hdir
    · rw [if_neg h1]
      by_cases h2 : t1 = ("notebook".data)
      · rw [if_pos h2]
        exact hnb
      · rw [if_neg h2]
        exact hfile
  match ty with
  | some t =>
    exact hdisp (if (".ipynb".data).isSuffixOf p then ("notebook".data) else t)
  | none =>
    rcases hty with hne | hex
    · exact absurd rfl hne
    · obtain ⟨i, hi⟩ := fsInfo_of_exists st (toOsPath env.root p) hex
      have hstep : inferTypeStep env st p none = .ok i.kind := by
        simp [inferTypeStep, to_fs_path_ok, hex, hi]
      unfold HDFSContentsManager.get
      simp only [hstep]
      exact hdisp (if (".ipynb".data).isSuffixOf p then ("notebook".data) else i.kind)

theorem claim_c10_amended_witness :
    HDFSContentsManager.get env0 st0 (".a".data) true (some ("file".data)) none =
      .error (.http 400 (.invalidHidden (".a".data))) :=
  claim_c10_amended env0 st0 (".a".data) true (some ("file".data)) none rfl
    (Or.inl (by simp))

/-! ### Claim C3: the checkpoint invariant of `save` -/

theorem fsLookup_setFile_self (st : FS) (q : PyStr) (b : List Nat) :
    fsLookup (fsSetFile st q b) q = some ⟨b, 420, 0, 0⟩ := by
  simp [fsLookup, fsSetFile, List.lookup]

theorem fs_copy_isfile (st : FS) (src dst : PyStr) (st2 : FS)
    (h : fs_copy st src dst = .ok st2) : fsIsfile st2 dst = true := by
  unfold fs_copy at h
  by_cases h1 : fsForbidden st dst = true
  · rw [if_pos h1] at h
    exact absurd h (by simp)
  · rw [if_neg h1] at h
    by_cases h2 : fsForbidden st src = true
    · rw [if_pos h2] at h
      exact absurd h (by simp)
    · rw [if_neg h2] at h
      cases hl : fsLookup st src with
      | none =>
        simp only [hl] at h
        exact absurd h (by simp)
      | some fd =>
        simp only [hl] at h
        unfold fsChmod at h
        have hforb2 : fsForbidden (fsSetFile st dst fd.content) dst = fsForbidden st dst := rfl
        rw [hforb2, if_neg h1] at h
        simp only [fsLookup_setFile_self] at h
        have hst2 := (by simpa using h : _ = st2)
        rw [← hst2]
        simp [fsIsfile, fsLookup, List.lookup]

theorem create_checkpoint_exists (env : Env) (st : FS) (p : PyStr) (st2 : FS)
    (r : CpRecord) (h : create_checkpoint env st p = .ok (st2, r)) :
    fsExists st2 (toOsPath env.root (checkpoint_path env ("checkpoint".data) p)) =
      true := by
  unfold create_checkpoint at h
  simp only [to_fs_path_ok] at h
  cases hcopy : fs_copy st (toOsPath env.root p)
      (toOsPath env.root (checkpoint_path env ("checkpoint".data) p)) with
  | error e =>
    simp only [hcopy] at h
    exact absurd h (by simp)
  | ok stC =>
    simp only [hcopy] at h
    cases hcm : checkpoint_model env stC ("checkpoint".data)
        (checkpoint_path env ("checkpoint".data) p) with
    | error e =>
      simp only [hcm] at h
      exact absurd h (by simp)
    | ok r2 =>
      simp only [hcm] at h
      obtain ⟨rfl, rfl⟩ : stC = st2 ∧ r2 = r := by simpa using h
      unfold fsExists
      rw [fs_copy_isfile st _ _ _ hcopy]
      rfl

theorem list_checkpoints_of_exists (env : Env) (st : FS) (p : PyStr)
    (hex : fsExists st
      (toOsPath env.root (checkpoint_path env ("checkpoint".data) p)) = true) :
    ∃ r, list_checkpoints env st p = .ok [r] := by
  unfold list_checkpoints
  simp only [to_fs_path_ok]
  rw [if_neg (not_not_intro hex)]
  unfold checkpoint_model
  simp only [to_fs_path_ok]
  obtain ⟨i, hi⟩ := fsInfo_of_exists st _ hex
  simp only [hi]
  exact ⟨_, rfl⟩

theorem list_checkpoints_shape (env : Env) (st : FS) (p : PyStr)
    (l : List CpRecord) (h : list_checkpoints env st p = .ok l) :
    l = [] ∨ ∃ r, l = [r] := by
  unfold list_checkpoints at h
  simp only [to_fs_path_ok] at h
  by_cases hex : fsExists st
      (toOsPath env.root (checkpoint_path env ("checkpoint".data) p)) = true
  · rw [if_neg (not_not_intro hex)] at h
    cases hcm : checkpoint_model env st ("checkpoint".data)
        (checkpoint_path env ("checkpoint".data) p) with
    | error e =>
      simp only [hcm] at h
      exact absurd h (by simp)
    | ok r =>
      simp only [hcm] at h
      right
      exact ⟨r, by simpa using h.symm⟩
  · rw [if_pos hex] at h
    left
    simpa using h.symm

theorem wrapSave_ok (p : PyStr) (r : Except PyExc FS) (s : FS)
    (h : wrapSave p r = .ok s) : r = .ok s := by
  match r with
  | .ok a => exact h
  | .error (.http s' m) => simp [wrapSave] at h
  | .error (.os m) => simp [wrapSave] at h
  | .error (.unicodeErr m) => simp [wrapSave] at h
  | .error (.binascii m) => simp [wrapSave] at h

theorem saveBody_notebook_reduce (env : Env) (st : FS) (p : PyStr) (nb : List Nat)
    (fmt : Option PyStr) :
    saveBody env st ⟨some ("notebook".data), some (.nb nb), fmt⟩ ("notebook".data) p =
      match save_notebook env st p nb with
      | .error e => .error e
      | .ok stA =>
        match list_checkpoints env stA p with
        | .error e => .error e
        | .ok lc =>
          if lc.isEmpty then
            match create_checkpoint env stA p with
            | .error e => .error e
            | .ok r => .ok r.1
          else .ok stA := by
  unfold saveBody
  rw [if_pos rfl]

theorem save_notebook_reduce (env : Env) (st : FS) (p : PyStr) (nb : List Nat)
    (fmt : Option PyStr) :
    save env st ⟨some ("notebook".data), some (.nb nb), fmt⟩ p =
      match ensure_path_is_valid env st p none false with
      | .error e => .error e
      | .ok _ =>
        match wrapSave p (saveBody env st ⟨some ("notebook".data), some (.nb nb), fmt⟩
            ("notebook".data) p) with
        | .error e => .error e
        | .ok st2 =>
          match HDFSContentsManager.get env st2 p false none none with
          | .error e => .error e
          | .ok em => .ok (st2, em) := by
  unfold save
  rfl

/-- C3: after any successful `save` of a notebook model at `p`, exactly one
checkpoint exists for `p`: `list_checkpoints` on the resulting state returns
a one-element sequence (and by construction it never returns more than
one).  The first successful save creates the checkpoint when none exists;
a save finding one leaves it in place. -/
theorem claim_c3_checkpoint (env : Env) (st : FS) (p : PyStr) (nb : List Nat)
    (fmt : Option PyStr) (st2 : FS) (em : EntryModel)
    (h : save env st ⟨some ("notebook".data), some (.nb nb), fmt⟩ p = .ok (st2, em)) :
    ∃ r, list_checkpoints env st2 p = .ok [r] := by
  rw [save_notebook_reduce] at h
  cases hens : ensure_path_is_valid env st p none false with
  | error e =>
    simp only [hens] at h
    exact absurd h (by simp)
  | ok u =>
    simp only [hens] at h
    cases hw : wrapSave p (saveBody env st ⟨some ("notebook".data), some (.nb nb), fmt⟩
        ("notebook".data) p) with
    | error e =>
      simp only [hw] at h
      exact absurd h (by simp)
    | ok stB =>
      simp only [hw] at h
      have hB := wrapSave_ok p _ stB hw
      rw [saveBody_notebook_reduce] at hB
      cases hget : HDFSContentsManager.get env stB p false none none with
      | error e =>
        simp only [hget] at h
        exact absurd h (by simp)
      | ok em2 =>
        simp only [hget] at h
        obtain ⟨rfl, rfl⟩ : stB = st2 ∧ em2 = em := by simpa using h
        cases hsn : save_notebook env st p nb with
        | error e =>
          simp only [hsn] at hB
          exact absurd hB (by simp)
        | ok stA =>
          simp only [hsn] at hB
          cases hlc : list_checkpoints env stA p with
          | error e =>
            simp only [hlc] at hB
            exact absurd hB (by simp)
          | ok lc =>
            simp only [hlc] at hB
            cases hemp : lc.isEmpty with
            | false =>
              rw [hemp] at hB
              simp only [Bool.false_eq_true, if_false] at hB
              obtain rfl : stA = stB := by simpa using hB
              rcases list_checkpoints_shape env stA p lc hlc with hnil | ⟨r, hr⟩
              · rw [hnil] at hemp
                simp at hemp
              · exact ⟨r, hr ▸ hlc⟩
            | true =>
              rw [hemp] at hB
              simp only [if_true] at hB
              cases hcc : create_checkpoint env stA p with
              | error e =>
                simp only [hcc] at hB
                exact absurd hB (by simp)
              | ok pr =>
                simp only [hcc] at hB
                obtain ⟨stC, rC⟩ := pr
                obtain rfl : stC = stB := by simpa using hB
                exact list_checkpoints_of_exists env stC p
                  (create_checkpoint_exists env stA p stC rC hcc)

/-- The C3 witness scenario: a first notebook save into an empty backend. -/
def savedC3 : Except PyExc (FS × EntryModel) :=
  save env0 st0 ⟨some ("notebook".data), some (.nb [1, 2, 3]), none⟩ ("nb.ipynb".data)

/-- The state after the C3 witness save. -/
def stC3 : FS :=
  match savedC3 with
  | .ok r => r.1
  | .error _ => st0

/-- The model returned by the C3 witness save. -/
def emC3 : EntryModel :=
  match savedC3 with
  | .ok r => r.2
  | .error _ => ⟨[], [], 0, 0, none, none, none, [], false⟩

theorem claim_c3_checkpoint_witness :
    save env0 st0 ⟨some ("notebook".data), some (.nb [1, 2, 3]), none⟩
        ("nb.ipynb".data) = .ok (stC3, emC3) ∧
      ∃ r, list_checkpoints env0 stC3 ("nb.ipynb".data) = .ok [r] :=
  ⟨rfl, claim_c3_checkpoint env0 st0 ("nb.ipynb".data) [1, 2, 3] none stC3 emC3 rfl⟩
